import Mathlib

/-!
Shallow embedding of the graph_csr repository (CSR builder, mmap view,
double-buffered compute engine) and proofs about its specification.

Machine integers are modelled as `Nat`.  The repository instantiates the
vertex-id type `V` at `u32`/`u64`; every counter appearing in the claims'
inputs stays far below `2^32`, where `u32`/`u64` arithmetic and `Nat`
arithmetic coincide, so no modular reduction is inserted.  Bytes are
`Nat` values `< 256`; native endianness is modelled as little-endian
(the platform the spec describes: 64-bit, `sizeof(usize) = 8`).
-/

deriving instance DecidableEq for Except

namespace GraphCSR

/-! ## util.rs: byte serialization (`ValidGraphType::serialize` / `from_bytes`) -/

/-- Little-endian byte string of `v`, `k` bytes wide
(`u32::to_ne_bytes` for `k = 4`, `u64`/`usize` for `k = 8`). -/
def toBytesLE : Nat → Nat → List Nat
  | 0, _ => []
  | k + 1, v => (v % 256) :: toBytesLE k (v / 256)

/-- Value of a little-endian byte string (`from_ne_bytes`). -/
def fromBytesLE : List Nat → Nat
  | [] => 0
  | b :: bs => b % 256 + 256 * fromBytesLE bs

/-- `<u32 as ValidGraphType>::serialize` (util.rs line 35): 4 native-endian bytes. -/
def serializeU32 (v : Nat) : List Nat := toBytesLE 4 v

/-- `<u64 as ValidGraphType>::serialize` (util.rs line 21): 8 native-endian bytes.
On the modelled 64-bit platform `usize` has the same width. -/
def serializeU64 (v : Nat) : List Nat := toBytesLE 8 v

/-! ## reading.rs: the CSR builder (`from_adjacency_list`, lines 35-108) -/

/-- The error side of `std::io::Result` as this crate uses it:
either a propagated IO/stream error or `ErrorKind::InvalidData`
(raised on unsorted input, reading.rs line 72). -/
inductive StreamErr
  | ioError
  | invalidData
deriving DecidableEq

/-- The builder's loop state: `previous_node`, `edges_count`, `max`
(reading.rs lines 52-54) together with the values so far written to
`vertex.csr` (`nodes`) and `edge.csr` (`edges`). -/
structure BuildAcc where
  previousNode : Nat
  edgesCount : Nat
  max : Nat
  nodes : List Nat
  edges : List Nat
deriving DecidableEq

/-- Result of `from_adjacency_list`: the contents of the two files plus the
two counts packed in `GraphFiles` (reading.rs lines 102-107):
`max.count() + 1` and `edges_count.count()`. -/
structure GraphFiles where
  nodes : List Nat
  edges : List Nat
  nNodesField : Nat
  nEdgesField : Nat
deriving DecidableEq

/-- Body of the `for e in stream` loop (reading.rs lines 60-86).
A stream error is propagated (line 63); `max` absorbs `dst` (line 66);
`src < previous_node` fails with `InvalidData` (line 72); `dst` is
appended to the edge file (line 76); the `while previous_node < src`
loop (lines 79-82) appends `src - previous_node` copies of the current
`edges_count` to the vertex file; finally `edges_count` is incremented. -/
def buildStep (acc : BuildAcc) (e : Except StreamErr (Nat × Nat)) :
    Except StreamErr BuildAcc :=
  match e with
  | Except.error er => Except.error er
  | Except.ok (src, dst) =>
    let m := if acc.max < dst then dst else acc.max
    if src < acc.previousNode then Except.error StreamErr.invalidData
    else
      Except.ok
        { previousNode := src
          edgesCount := acc.edgesCount + 1
          max := m
          nodes := acc.nodes ++ List.replicate (src - acc.previousNode) acc.edgesCount
          edges := acc.edges ++ [dst] }

/-- The `for e in stream` loop (reading.rs lines 60-86): fold the stream
with `buildStep`, returning early on the first error (the `?` operator). -/
def runBuild (acc : BuildAcc) : List (Except StreamErr (Nat × Nat)) →
    Except StreamErr BuildAcc
  | [] => Except.ok acc
  | e :: es =>
    match buildStep acc e with
    | Except.error er => Except.error er
    | Except.ok acc1 => runBuild acc1 es

/-- `from_adjacency_list` (reading.rs lines 35-108) at the level of the
values written to the two files.  The initial offset `0` is written first
(line 56); the stream is folded with `buildStep`; after the stream,
`max := max + 1` (line 88) and the trailing `while previous_node < max`
loop (lines 91-94) appends `max - previous_node` copies of `edges_count`. -/
def fromAdjacencyList (stream : List (Except StreamErr (Nat × Nat))) :
    Except StreamErr GraphFiles :=
  let init : BuildAcc :=
    { previousNode := 0, edgesCount := 0, max := 0, nodes := [0], edges := [] }
  match runBuild init stream with
  | Except.error e => Except.error e
  | Except.ok acc =>
    let m := acc.max + 1
    Except.ok
      { nodes := acc.nodes ++ List.replicate (m - acc.previousNode) acc.edgesCount
        edges := acc.edges
        nNodesField := m + 1
        nEdgesField := acc.edgesCount }

/-! ## reading.rs: binary adjacency parser (`ReaderIterator`, lines 110-157) -/

/-- A `Read` source: the bytes still available, and whether exhausting them
surfaces an IO error (`ioError = true`) or a clean end of file. -/
structure ByteSource where
  bytes : List Nat
  ioError : Bool
deriving DecidableEq

/-- The two ways `read_exact` can fail: clean end of input
(`ErrorKind::UnexpectedEof`) or a genuine IO failure. -/
inductive ReadErr
  | unexpectedEof
  | ioFailure
deriving DecidableEq

/-- `Read::read_exact` for `k` bytes: succeeds iff `k` bytes remain,
otherwise reports the IO error when one is pending and EOF otherwise. -/
def readExact (k : Nat) (s : ByteSource) : Except ReadErr (List Nat × ByteSource) :=
  if k ≤ s.bytes.length then
    Except.ok (s.bytes.take k, { s with bytes := s.bytes.drop k })
  else if s.ioError then Except.error ReadErr.ioFailure
  else Except.error ReadErr.unexpectedEof

/-- `ReaderIterator::next` for `T = u32` (reading.rs lines 141-156): two
`read_exact` calls of `size_of::<T>() = 4` bytes; ANY `Err(_)` from either
read, the IO-failure case included, is mapped to `None`. -/
def readerNext (s : ByteSource) : Option ((Nat × Nat) × ByteSource) :=
  match readExact 4 s with
  | Except.error _ => none
  | Except.ok (b1, s1) =>
    match readExact 4 s1 with
    | Except.error _ => none
    | Except.ok (b2, s2) => some ((fromBytesLE b1, fromBytesLE b2), s2)

/-- Driving `ReaderIterator` to exhaustion.  Fuel-indexed: every `some`
step consumes 8 bytes of the source, so `s.bytes.length + 1` fuel is
always enough. -/
def readerToListFuel : Nat → ByteSource → List (Nat × Nat)
  | 0, _ => []
  | fuel + 1, s =>
    match readerNext s with
    | none => []
    | some (p, s1) => p :: readerToListFuel fuel s1

/-- The full pair sequence the binary parser yields from `s`. -/
def readerToList (s : ByteSource) : List (Nat × Nat) :=
  readerToListFuel (s.bytes.length + 1) s

/-- The stream `Graph::from_binary_adjancency` (lib.rs lines 62-73) hands to
the builder: every yielded pair wrapped in `Ok` (`.map(|x| Ok(x))`). -/
def binaryAdjacencyStream (s : ByteSource) : List (Except StreamErr (Nat × Nat)) :=
  (readerToList s).map Except.ok

/-! ## lib.rs: the memory-mapped view (`load_graph`, `n_nodes`, `n_edges`, iteration)

The generic mmap helper (`easy_mmap`) is an external collaborator, out of
scope of the sources; per the spec (section 4.2) it is modelled as: stat
the file, and view its bytes as a typed array of `file_len / sizeof(T)`
elements.  `load_graph` (lib.rs lines 91-120) maps `vertex.csr` at
`T = usize` (8 bytes on the modelled platform) and `edge.csr` at `T = V`. -/

/-- View a byte file as a typed array of `k`-byte native-endian values:
`file_len / k` elements, trailing remainder bytes ignored. -/
def loadArray (k : Nat) (bytes : List Nat) : List Nat :=
  (List.range (bytes.length / k)).map (fun i => fromBytesLE ((bytes.drop (k * i)).take k))

/-- The bytes of `vertex.csr` when the builder is instantiated at `V = u32`:
each offset is written via `edges_count.serialize()` (reading.rs lines 56,
81, 93) and `edges_count` has type `N = u32`, hence 4 bytes per offset. -/
def vertexFileBytesU32 (g : GraphFiles) : List Nat := g.nodes.flatMap serializeU32

/-- The bytes of `edge.csr` for `V = u32` (reading.rs line 76). -/
def edgeFileBytesU32 (g : GraphFiles) : List Nat := g.edges.flatMap serializeU32

/-- A loaded `Graph` (lib.rs lines 18-21): the typed contents of the two maps. -/
structure Graph where
  nodes : List Nat
  edges : List Nat
deriving DecidableEq

/-- `Graph::load_graph` for `V = u32` on the 64-bit platform: `vertex.csr`
mapped as `usize` (8-byte entries), `edge.csr` as `u32` (4-byte entries). -/
def loadGraphU32 (g : GraphFiles) : Graph :=
  { nodes := loadArray 8 (vertexFileBytesU32 g)
    edges := loadArray 4 (edgeFileBytesU32 g) }

/-- The view at the width-matching instantiation (`V = u64 = usize` on the
64-bit platform, where the byte round-trip is the identity): the typed
arrays are exactly the value sequences the builder wrote. -/
def logicalGraph (g : GraphFiles) : Graph :=
  { nodes := g.nodes, edges := g.edges }

/-- `Graph::n_nodes` (lib.rs lines 144-146): `self.nodes.len() - 1`. -/
def Graph.nNodes (g : Graph) : Nat := g.nodes.length - 1

/-- `Graph::n_edges` (lib.rs lines 149-151): `self.edges.len()`. -/
def Graph.nEdges (g : Graph) : Nat := g.edges.length

/-- The out-edge slice of vertex `i`:
`&self.edges[self.nodes[i] .. self.nodes[i+1]]` (lib.rs lines 172-177). -/
def Graph.outEdges (g : Graph) (i : Nat) : List Nat :=
  (g.edges.take (g.nodes.getD (i + 1) 0)).drop (g.nodes.getD i 0)

/-- The indexed per-vertex edge-list sequence over which `push` iterates.
Modelled from the spec (section 4.2): the lazy sequence of
`(i, out_edges(i))` for `i in 0 .. n_vertices()`; `Graph::par_iter`
itself is not among the sampled sources (only its caller in compute.rs
is), and `GraphIterator` (lib.rs lines 161-179) yields the same slices
in the same order, without the index. -/
def Graph.indexedEdgeLists (g : Graph) : List (Nat × List Nat) :=
  (List.range g.nNodes).map (fun i => (i, g.outEdges i))

/-! ## compute.rs: the double-buffered compute engine (`ComputeGraph`)

The four per-vertex arrays (compute.rs lines 13-19).  The engine's only
other field is the borrowed, read-only `&Graph`, which no engine method
writes; it is passed separately where needed.  The claims in scope are
about sequential executions, so the `rayon` data-parallel iterations are
embedded as their sequential equivalents in index order. -/

structure ComputeState (D : Type) where
  oldActive : List Bool
  newActive : List Bool
  oldData : List D
  newData : List D
deriving DecidableEq

/-- `ComputeGraph::new` (compute.rs lines 27-40): four length-`n_nodes()`
arrays, activity `false`, data `DataType::default()` (passed as `d0`). -/
def ComputeState.new (D : Type) (nNodes : Nat) (d0 : D) : ComputeState D :=
  { oldActive := List.replicate nNodes false
    newActive := List.replicate nNodes false
    oldData := List.replicate nNodes d0
    newData := List.replicate nNodes d0 }

/-- `ComputeGraph::set_active` (compute.rs lines 43-46):
`self.new_active[idx].store(status)`.  `Vec` indexing panics when
`idx` is out of bounds; the panic is modelled as `none`. -/
def setActive (s : ComputeState D) (idx : Nat) (status : Bool) :
    Option (ComputeState D) :=
  if idx < s.newActive.length then
    some { s with newActive := s.newActive.set idx status }
  else none

/-- `ComputeGraph::set_data` (compute.rs lines 49-52):
`self.new_data[idx].store(data)`, panicking (`none`) out of bounds. -/
def setData (s : ComputeState D) (idx : Nat) (data : D) :
    Option (ComputeState D) :=
  if idx < s.newData.length then
    some { s with newData := s.newData.set idx data }
  else none

/-- `ComputeGraph::fill_active` (compute.rs lines 56-60). -/
def fillActive (s : ComputeState D) (status : Bool) : ComputeState D :=
  { s with newActive := s.newActive.map (fun _ => status) }

/-- `ComputeGraph::fill_data` (compute.rs lines 64-68). -/
def fillData (s : ComputeState D) (data : D) : ComputeState D :=
  { s with newData := s.newData.map (fun _ => data) }

/-- `ComputeGraph::step` (compute.rs lines 73-88): swap `old`/`new` for
both arrays; `fill_active(false)`; copy every entry of `old_data` into
`new_data`.  The copy is `new_data.iter_mut().zip(old_data.iter())`, so
it stops at the shorter of the two; any surplus `new_data` entries keep
their values (on all reachable states the lengths are equal). -/
def step (s : ComputeState D) : ComputeState D :=
  let oldActive := s.newActive
  let oldData := s.newData
  let newActive := (s.oldActive).map (fun _ => false)
  let newData :=
    ((s.oldData).zip oldData).map (fun p => p.2) ++ (s.oldData).drop oldData.length
  { oldActive := oldActive, newActive := newActive,
    oldData := oldData, newData := newData }

/-- `ComputeGraph::n_active` (compute.rs lines 92-97): the number of
`true` entries of `old_active`. -/
def nActive (s : ComputeState D) : Nat :=
  (s.oldActive.filter (fun x => x)).length

/-- One invocation of the user relaxation inside `push`, as recorded for
the proofs: source vertex, destination vertex, the `old_data[src]` value
passed as first argument, and the `bool` the relaxation returned. -/
structure RelaxCall (D : Type) where
  src : Nat
  dst : Nat
  arg : D
  improved : Bool
deriving DecidableEq

/-- The mutable state `push` threads through the sweep: the `new_data`
and `new_active` arrays, plus the trace of relaxation calls. -/
structure PushAcc (D : Type) where
  nd : List D
  na : List Bool
  tr : List (RelaxCall D)

/-- The inner loop body of `push` (compute.rs lines 111-120) for one
destination `d` of the active vertex `i`: call
`func(old_data[i], &new_data[d])` — modelled as a pure
`relax : D → D → Bool × D` returning the flag and the value the cell
holds after the call — and on `true` store `true` into `new_active[d]`. -/
def pushEdge [Inhabited D] (relax : D → D → Bool × D) (i : Nat) (a : D)
    (acc : PushAcc D) (d : Nat) : PushAcc D :=
  let r := relax a (acc.nd.getD d default)
  { nd := acc.nd.set d r.2
    na := if r.1 then acc.na.set d true else acc.na
    tr := acc.tr ++ [{ src := i, dst := d, arg := a, improved := r.1 }] }

/-- The per-vertex body of `push` (compute.rs lines 109-121): iterate the
out-edge slice of vertex `p.1`, passing `old_data[p.1]` to every call. -/
def pushVertex [Inhabited D] (relax : D → D → Bool × D) (oldD : List D)
    (acc : PushAcc D) (p : Nat × List Nat) : PushAcc D :=
  p.2.foldl (pushEdge relax p.1 (oldD.getD p.1 default)) acc

/-- The whole relaxation sweep of `push` (compute.rs lines 105-121):
filter the indexed edge-list sequence by `old_active` (line 108), then
run the per-vertex body over the remaining vertices. -/
def pushAcc [Inhabited D] (g : Graph) (relax : D → D → Bool × D)
    (s : ComputeState D) : PushAcc D :=
  (g.indexedEdgeLists.filter (fun p => s.oldActive.getD p.1 false)).foldl
    (pushVertex relax s.oldData) { nd := s.newData, na := s.newActive, tr := [] }

/-- `ComputeGraph::push` (compute.rs lines 101-122), sequentially.
Returns the new state together with the call trace; the `old_*` buffers
are only read, never written. -/
def push [Inhabited D] (g : Graph) (relax : D → D → Bool × D)
    (s : ComputeState D) : ComputeState D × List (RelaxCall D) :=
  ({ s with newData := (pushAcc g relax s).nd, newActive := (pushAcc g relax s).na },
    (pushAcc g relax s).tr)

/-- Outcome of `save_data_to_file` (compute.rs lines 129-137): a normal
return with the bytes written, a propagated IO error, or a panic. -/
inductive SaveOutcome
  | ok (bytes : List Nat)
  | ioError
  | panicked
deriving DecidableEq

/-- The write loop of `save_data_to_file` (compute.rs lines 131-134):
`value.write_self(&mut writer)?` for each entry in vertex-id order.
`writeFails i` says whether the `i`-th write reports an IO error, which
the `?` operator propagates. -/
def writeAll (writeFails : Nat → Bool) (ser : D → List Nat) :
    Nat → List D → SaveOutcome
  | _, [] => SaveOutcome.ok []
  | i, d :: ds =>
    if writeFails i then SaveOutcome.ioError
    else
      match writeAll writeFails ser (i + 1) ds with
      | SaveOutcome.ok bs => SaveOutcome.ok (ser d ++ bs)
      | r => r

/-- `ComputeGraph::save_data_to_file` (compute.rs lines 129-137).
`createOk` says whether `std::fs::File::create(filename)` succeeds; the
source calls `.unwrap()` on that result, so a creation failure PANICS
(modelled as `SaveOutcome.panicked`) instead of returning the error. -/
def saveDataToFile (createOk : Bool) (writeFails : Nat → Bool)
    (ser : D → List Nat) (oldData : List D) : SaveOutcome :=
  if createOk then writeAll writeFails ser 0 oldData
  else SaveOutcome.panicked

/-! ## Shared helper lemmas -/

lemma map_const_eq_replicate {α β : Type} (l : List α) (b : β) :
    l.map (fun _ => b) = List.replicate l.length b := by
  induction l with
  | nil => rfl
  | cons a l ih => simp [ih, List.replicate]

lemma copy_zip_into {α : Type} (l1 l2 : List α) (h : l1.length = l2.length) :
    (l1.zip l2).map (fun p => p.2) ++ l1.drop l2.length = l2 := by
  induction l1 generalizing l2 with
  | nil =>
    cases l2 with
    | nil => rfl
    | cons b bs => exact absurd h (by simp)
  | cons a as ih =>
    cases l2 with
    | nil => exact absurd h (by simp)
    | cons b bs =>
      simp only [List.zip_cons_cons, List.map_cons, List.length_cons,
        List.drop_succ_cons, List.cons_append, List.cons.injEq, true_and]
      exact ih bs (by simpa using h)

lemma writeAll_no_fail {D : Type} (ser : D → List Nat) :
    ∀ (i : Nat) (data : List D),
      writeAll (fun _ => false) ser i data = SaveOutcome.ok (data.flatMap ser)
  | _, [] => rfl
  | i, d :: ds => by
    simp only [writeAll, Bool.false_eq_true, if_false,
      writeAll_no_fail ser (i + 1) ds, List.flatMap_cons]

lemma all_isOk_map_ok {E α : Type} (l : List α) :
    (l.map (Except.ok : α → Except E α)).all Except.isOk = true := by
  induction l with
  | nil => rfl
  | cons a l ih =>
    simp only [List.map_cons, List.all_cons, ih, Bool.and_true]
    rfl

/-! ## Claim theorems

The running example from the spec's scenario 1 and the repository's own
tests: edges `[(0,1),(0,2),(1,5),(1,2),(4,7)]`. -/

def exampleStream : List (Except StreamErr (Nat × Nat)) :=
  [Except.ok (0, 1), Except.ok (0, 2), Except.ok (1, 5),
   Except.ok (1, 2), Except.ok (4, 7)]

def exampleFiles : GraphFiles :=
  { nodes := [0, 2, 4, 4, 4, 5, 5, 5, 5]
    edges := [1, 2, 5, 2, 7]
    nNodesField := 9
    nEdgesField := 5 }

/-- Claim C1.  The builder on `[(0,1),(0,2),(1,5),(1,2),(4,7)]` does write
the offsets `[0,2,4,4,4,5,5,5,5]` and the edge array `[1,2,5,2,7]`, and the
View reports `n_edges() = 5` — but at the claimed vertex type `u32` on the
64-bit platform the builder serializes each offset in 4 bytes while the
View maps `vertex.csr` as 8-byte `usize` entries, so `n_vertices()` comes
out as `36 / 8 - 1 = 3`, not the claimed `8`. -/
theorem build_example_u32_view_counts :
    fromAdjacencyList exampleStream = Except.ok exampleFiles ∧
    (loadGraphU32 exampleFiles).nEdges = 5 ∧
    (loadGraphU32 exampleFiles).edges = exampleFiles.edges ∧
    (loadGraphU32 exampleFiles).nNodes = 3 ∧ ¬ ((3 : Nat) = 8) := by
  decide

/-- Claim C2.  Evaluation at the sorted, error-free stream `[(1,0)]`: the
builder writes the vertex offsets `[0,0]` and one edge, so the last offset
written is `0` while `len(edge) = 1` — the sentinel clause of the claim
fails on this input. -/
theorem build_missing_sentinel_eval :
    fromAdjacencyList [Except.ok (1, 0)] =
      Except.ok { nodes := [0, 0], edges := [0], nNodesField := 2, nEdgesField := 1 } ∧
    ([0, 0] : List Nat).getLast? = some 0 ∧
    ([0] : List Nat).length = 1 ∧ ¬ ((0 : Nat) = 1) := by
  decide

/-- Claim C3.  Evaluation at `[(2,0)]`, where the largest source id `2`
exceeds the largest destination id `0`: the claim's `N` is
`max(2, 0) + 1 = 3`, so `N + 1 = 4` offsets should be written, ending in
the edge count `1`; the builder's trailing loop only runs while
`previous_node < max_dst + 1 = 1`, so it writes nothing and the vertex
file holds just the `3` offsets `[0,0,0]` with no sentinel. -/
theorem build_final_offsets_eval :
    fromAdjacencyList [Except.ok (2, 0)] =
      Except.ok { nodes := [0, 0, 0], edges := [0], nNodesField := 2, nEdgesField := 1 } ∧
    ([0, 0, 0] : List Nat).length = 3 ∧
    ¬ ((3 : Nat) = Nat.max 2 0 + 1 + 1) := by
  decide

/-- Claim C4.  For `V = u32` each offset is written via
`edges_count.serialize()` and is 4 bytes wide, not
`sizeof(usize) = 8`; on the example build the vertex file is 36 bytes,
the View maps it as four 8-byte entries whose values are not the nine
offsets the builder wrote, and `n_vertices() = 3`. -/
theorem u32_offset_width_mismatch :
    (serializeU32 0).length = 4 ∧ (serializeU64 0).length = 8 ∧ ¬ ((4 : Nat) = 8) ∧
    (vertexFileBytesU32 exampleFiles).length = 36 ∧
    loadArray 8 (vertexFileBytesU32 exampleFiles) =
      [8589934592, 17179869188, 21474836484, 21474836485] ∧
    ¬ (loadArray 8 (vertexFileBytesU32 exampleFiles) = exampleFiles.nodes) ∧
    (loadGraphU32 exampleFiles).nNodes = 3 := by
  decide

/-- Claim C7.  `save_data_to_file` calls
`std::fs::File::create(filename).unwrap()`: whenever the target file
cannot be created the method panics instead of returning the error value,
for every data vector and write behaviour.  When creation succeeds and no
write fails, it does write every entry of `old_data` in vertex-id order as
fixed-width native-endian bytes. -/
theorem save_data_panics_on_create_failure :
    (∀ (writeFails : Nat → Bool) (data : List Nat),
      saveDataToFile false writeFails serializeU32 data = SaveOutcome.panicked) ∧
    SaveOutcome.panicked ≠ SaveOutcome.ioError ∧
    (∀ data : List Nat,
      saveDataToFile true (fun _ => false) serializeU32 data =
        SaveOutcome.ok (data.flatMap serializeU32)) := by
  refine ⟨fun _ _ => rfl, by decide, fun data => ?_⟩
  simpa [saveDataToFile] using writeAll_no_fail serializeU32 0 data

/-- Claim C8, counterexample.  A `u32` byte source holding one whole
`(0, 1)` record and then failing with a genuine IO error: the binary
parser yields `[(0, 1)]` and stops; `from_binary_adjancency` wraps every
yielded pair in `Ok`, so the Builder sees an error-free stream and
succeeds — the IO error never surfaces, contradicting the claim. -/
theorem binary_reader_swallows_io_error :
    ({ bytes := [0, 0, 0, 0, 1, 0, 0, 0], ioError := true } : ByteSource).ioError = true ∧
    readExact 4 ({ bytes := [], ioError := true } : ByteSource) =
      Except.error ReadErr.ioFailure ∧
    binaryAdjacencyStream { bytes := [0, 0, 0, 0, 1, 0, 0, 0], ioError := true } =
      [Except.ok (0, 1)] ∧
    fromAdjacencyList
        (binaryAdjacencyStream { bytes := [0, 0, 0, 0, 1, 0, 0, 0], ioError := true }) =
      Except.ok { nodes := [0, 1, 1], edges := [1], nNodesField := 3, nEdgesField := 1 } := by
  decide

/-- Claim C8, amended.  `ReaderIterator::next` maps every `read_exact`
failure — genuine IO errors included — to `None`, so a read failure is
treated as end of stream: the stream handed to the Builder consists of
`Ok` items only, for every byte source, and a source that fails
immediately yields `None` on the first `next`. -/
theorem binary_stream_never_errors :
    (∀ s : ByteSource, (binaryAdjacencyStream s).all Except.isOk = true) ∧
    readerNext { bytes := [], ioError := true } = none := by
  exact ⟨fun s => all_isOk_map_ok (readerToList s), rfl⟩

/-- Claim C9, counterexample.  On the empty stream the builder writes the
initial `0` and then, because the trailing loop runs up to
`max + 1 = 1`, one further offset: the vertex file holds `[0, 0]`, not
only the single initial offset, and a width-matching View reports
`n_vertices() = 1`, not `0`. -/
theorem empty_stream_not_single_offset :
    fromAdjacencyList ([] : List (Except StreamErr (Nat × Nat))) =
      Except.ok { nodes := [0, 0], edges := [], nNodesField := 2, nEdgesField := 0 } ∧
    ¬ (([0, 0] : List Nat) = [0]) ∧
    (logicalGraph { nodes := [0, 0], edges := [], nNodesField := 2, nEdgesField := 0 }).nNodes
      = 1 ∧
    ¬ ((1 : Nat) = 0) := by
  decide

/-- Claim C9, amended.  On the empty stream the builder writes the two
offsets `[0, 0]` and no edges; opening the result does not fail and the
width-matching View reports `n_vertices() = 1` and `n_edges() = 0`. -/
theorem empty_stream_builder_behavior :
    fromAdjacencyList ([] : List (Except StreamErr (Nat × Nat))) =
      Except.ok { nodes := [0, 0], edges := [], nNodesField := 2, nEdgesField := 0 } ∧
    (logicalGraph { nodes := [0, 0], edges := [], nNodesField := 2, nEdgesField := 0 }).nNodes
      = 1 ∧
    (logicalGraph { nodes := [0, 0], edges := [], nNodesField := 2, nEdgesField := 0 }).nEdges
      = 0 := by
  decide

/-- Claim C5.  For every state whose two data buffers have equal length
(true of every reachable state, all four arrays being allocated at length
`n_nodes()`), `step` moves the pre-call `new_active`/`new_data` contents
into `old_active`/`old_data`, resets every `new_active` entry to `false`,
and makes `new_data` equal to the post-call `old_data`; the four fields
are the whole engine state, so nothing else changes. -/
theorem step_spec (D : Type) (s : ComputeState D)
    (h : s.oldData.length = s.newData.length) :
    (step s).oldActive = s.newActive ∧
    (step s).oldData = s.newData ∧
    (step s).newActive = List.replicate s.oldActive.length false ∧
    (step s).newData = (step s).oldData := by
  refine ⟨rfl, rfl, map_const_eq_replicate s.oldActive false, ?_⟩
  show (s.oldData.zip s.newData).map (fun p => p.2) ++ s.oldData.drop s.newData.length
      = s.newData
  exact copy_zip_into s.oldData s.newData h

/-- Claim C5, witness: `step_spec` instantiated at a concrete state. -/
theorem step_spec_witness :
    (step { oldActive := [true], newActive := [false],
            oldData := [3], newData := [5] }).oldActive = [false] ∧
    (step { oldActive := [true], newActive := [false],
            oldData := [3], newData := [5] }).oldData = [5] ∧
    (step { oldActive := [true], newActive := [false],
            oldData := [3], newData := [5] }).newActive = List.replicate 1 false ∧
    (step { oldActive := [true], newActive := [false],
            oldData := [3], newData := [5] }).newData =
      (step { oldActive := [true], newActive := [false],
              oldData := [3], newData := [5] }).oldData :=
  step_spec Nat
    { oldActive := [true], newActive := [false], oldData := [3], newData := [5] } rfl

/-- Claim C10.  `set_active` and `set_data` index directly into the
length-`N` `new_active`/`new_data` vectors, so on a state allocated at
length `n` every index `idx ≥ n` panics with an out-of-bounds access
(modelled as `none`): the write is neither silently ignored nor clamped,
and no error value is returned; in-bounds indices do perform the write. -/
theorem set_out_of_bounds_panics (D : Type) (s : ComputeState D) (n idx : Nat)
    (b : Bool) (v : D) (hA : s.newActive.length = n) (hD : s.newData.length = n)
    (h : n ≤ idx) :
    setActive s idx b = none ∧ setData s idx v = none := by
  constructor
  · simp [setActive, hA, Nat.not_lt.mpr h]
  · simp [setData, hD, Nat.not_lt.mpr h]

/-- Claim C10, witness: `set_out_of_bounds_panics` at a freshly allocated
engine state of two vertices and index `5`. -/
theorem set_out_of_bounds_panics_witness :
    setActive (ComputeState.new Nat 2 0) 5 true = none ∧
    setData (ComputeState.new Nat 2 0) 5 7 = none :=
  set_out_of_bounds_panics Nat (ComputeState.new Nat 2 0) 2 5 true 7
    (by decide) (by decide) (by decide)

/-! ## Lemmas about the relaxation sweep (`push`) -/

lemma pushEdge_na_length {D : Type} [Inhabited D] (relax : D → D → Bool × D)
    (i : Nat) (a : D) (acc : PushAcc D) (d : Nat) :
    (pushEdge relax i a acc d).na.length = acc.na.length := by
  simp only [pushEdge]
  split <;> simp

lemma foldl_pushEdge_na_length {D : Type} [Inhabited D] (relax : D → D → Bool × D)
    (i : Nat) (a : D) (es : List Nat) :
    ∀ acc : PushAcc D,
      (es.foldl (pushEdge relax i a) acc).na.length = acc.na.length := by
  induction es with
  | nil => intro acc; rfl
  | cons d es ih =>
    intro acc
    rw [List.foldl_cons, ih, pushEdge_na_length]

lemma pushVertex_na_length {D : Type} [Inhabited D] (relax : D → D → Bool × D)
    (oldD : List D) (acc : PushAcc D) (p : Nat × List Nat) :
    (pushVertex relax oldD acc p).na.length = acc.na.length :=
  foldl_pushEdge_na_length relax p.1 (oldD.getD p.1 default) p.2 acc

lemma foldl_pushEdge_trace {D : Type} [Inhabited D] (relax : D → D → Bool × D)
    (i : Nat) (a : D) (es : List Nat) :
    ∀ acc : PushAcc D,
      (es.foldl (pushEdge relax i a) acc).tr.map (fun c => (c.src, c.dst, c.arg))
        = acc.tr.map (fun c => (c.src, c.dst, c.arg)) ++ es.map (fun d => (i, d, a)) := by
  induction es with
  | nil => intro acc; simp
  | cons d es ih =>
    intro acc
    rw [List.foldl_cons, ih]
    simp [pushEdge]

lemma foldl_pushVertex_trace {D : Type} [Inhabited D] (relax : D → D → Bool × D)
    (oldD : List D) (l : List (Nat × List Nat)) :
    ∀ acc : PushAcc D,
      (l.foldl (pushVertex relax oldD) acc).tr.map (fun c => (c.src, c.dst, c.arg))
        = acc.tr.map (fun c => (c.src, c.dst, c.arg))
          ++ l.flatMap (fun p => p.2.map (fun d => (p.1, d, oldD.getD p.1 default))) := by
  induction l with
  | nil => intro acc; simp
  | cons p l ih =>
    intro acc
    rw [List.foldl_cons, ih, pushVertex, foldl_pushEdge_trace]
    simp

lemma filter_map_comm {α β : Type} (f : α → β) (q : β → Bool) (l : List α) :
    (l.map f).filter q = (l.filter (fun x => q (f x))).map f := by
  induction l with
  | nil => rfl
  | cons a l ih =>
    simp only [List.map_cons, List.filter_cons, ih]
    by_cases h : q (f a) <;> simp [h]

lemma flatMap_map_comm {α β γ : Type} (f : α → β) (g : β → List γ) (l : List α) :
    (l.map f).flatMap g = l.flatMap (fun x => g (f x)) := by
  induction l with
  | nil => rfl
  | cons a l ih => simp [ih]

lemma mem_outEdges (g : Graph) (i d : Nat) (h : d ∈ g.outEdges i) : d ∈ g.edges := by
  unfold Graph.outEdges at h
  exact List.mem_of_mem_take (List.mem_of_mem_drop h)

lemma getD_set_true_of_getD_true (l : List Bool) :
    ∀ (j d : Nat), l.getD d false = true → (l.set j true).getD d false = true := by
  induction l with
  | nil => intro j d h; simp [List.getD_nil] at h
  | cons a l ih =>
    intro j d h
    cases j with
    | zero =>
      cases d with
      | zero => simp
      | succ d => simpa using h
    | succ j =>
      cases d with
      | zero => simpa using h
      | succ d => simpa using ih j d (by simpa using h)

lemma getD_set_self (l : List Bool) :
    ∀ d : Nat, d < l.length → (l.set d true).getD d false = true := by
  induction l with
  | nil => intro d h; exact absurd h (by simp)
  | cons a l ih =>
    intro d h
    cases d with
    | zero => simp
    | succ d => simpa using ih d (by simpa using h)

lemma foldl_pushEdge_active {D : Type} [Inhabited D] (relax : D → D → Bool × D)
    (i : Nat) (a : D) (es : List Nat) :
    ∀ acc : PushAcc D,
      (∀ d ∈ es, d < acc.na.length) →
      (∀ c ∈ acc.tr, c.improved = true → acc.na.getD c.dst false = true) →
      ∀ c ∈ (es.foldl (pushEdge relax i a) acc).tr, c.improved = true →
        (es.foldl (pushEdge relax i a) acc).na.getD c.dst false = true := by
  induction es with
  | nil => intro acc _ hi c hc himp; exact hi c hc himp
  | cons d es ih =>
    intro acc hb hi
    rw [List.foldl_cons]
    apply ih (pushEdge relax i a acc d)
    · intro d1 hd1
      rw [pushEdge_na_length]
      exact hb d1 (List.mem_cons_of_mem d hd1)
    · intro c hc himp
      have hd : d < acc.na.length := hb d (List.mem_cons_self d es)
      simp only [pushEdge, List.mem_append, List.mem_singleton] at hc ⊢
      rcases hc with h1 | h2
      · have hold := hi c h1 himp
        split
        · exact getD_set_true_of_getD_true acc.na d c.dst hold
        · exact hold
      · subst h2
        simp only at himp
        rw [if_pos himp]
        exact getD_set_self acc.na d hd

lemma foldl_pushVertex_active {D : Type} [Inhabited D] (relax : D → D → Bool × D)
    (oldD : List D) (l : List (Nat × List Nat)) :
    ∀ acc : PushAcc D,
      (∀ p ∈ l, ∀ d ∈ p.2, d < acc.na.length) →
      (∀ c ∈ acc.tr, c.improved = true → acc.na.getD c.dst false = true) →
      ∀ c ∈ (l.foldl (pushVertex relax oldD) acc).tr, c.improved = true →
        (l.foldl (pushVertex relax oldD) acc).na.getD c.dst false = true := by
  induction l with
  | nil => intro acc _ hi c hc himp; exact hi c hc himp
  | cons p l ih =>
    intro acc hb hi
    rw [List.foldl_cons]
    apply ih
    · intro p1 hp1 d hd
      rw [pushVertex_na_length]
      exact hb p1 (List.mem_cons_of_mem p hp1) d hd
    · unfold pushVertex
      apply foldl_pushEdge_active
      · intro d hd; exact hb p (List.mem_cons_self p l) d hd
      · exact hi

/-- Claim C6.  In a sequential `push(relax)` over a graph all of whose
destination ids are in bounds for the engine state: the `old_*` buffers
are returned untouched; the relaxation-call trace, projected to
(source, destination, first argument), is exactly one call per
destination `d` of each out-edge slice of each vertex `i` with
`old_active[i] = true`, in order, with first argument `old_data[i]`
(inactive vertices contribute nothing); and for every call that returned
`true`, `new_active` at its destination holds `true` afterwards. -/
theorem push_spec (D : Type) [Inhabited D] (g : Graph) (relax : D → D → Bool × D)
    (s : ComputeState D) (hdst : ∀ d ∈ g.edges, d < s.newActive.length) :
    (push g relax s).1.oldActive = s.oldActive ∧
    (push g relax s).1.oldData = s.oldData ∧
    (push g relax s).2.map (fun c => (c.src, c.dst, c.arg)) =
      ((List.range g.nNodes).filter (fun i => s.oldActive.getD i false)).flatMap
        (fun i => (g.outEdges i).map (fun d => (i, d, s.oldData.getD i default))) ∧
    (∀ c ∈ (push g relax s).2, c.improved = true →
      (push g relax s).1.newActive.getD c.dst false = true) := by
  refine ⟨rfl, rfl, ?_, ?_⟩
  · show (pushAcc g relax s).tr.map _ = _
    unfold pushAcc
    rw [foldl_pushVertex_trace]
    unfold Graph.indexedEdgeLists
    rw [filter_map_comm, flatMap_map_comm]
    simp
  · show ∀ c ∈ (pushAcc g relax s).tr, c.improved = true →
      (pushAcc g relax s).na.getD c.dst false = true
    unfold pushAcc
    apply foldl_pushVertex_active
    · intro p hp d hd
      have hp2 := List.mem_of_mem_filter hp
      unfold Graph.indexedEdgeLists at hp2
      rcases List.mem_map.mp hp2 with ⟨i, _, rfl⟩
      exact hdst d (mem_outEdges g i d hd)
    · intro c hc; exact absurd hc (List.not_mem_nil c)

def witnessGraph : Graph := { nodes := [0, 1, 2], edges := [1, 0] }

def witnessRelax : Nat → Nat → Bool × Nat :=
  fun a c => (decide (a < c), if a < c then a else c)

def witnessState : ComputeState Nat :=
  { oldActive := [true, false], newActive := [false, false],
    oldData := [5, 7], newData := [9, 9] }

/-- Claim C6, witness: `push_spec` at a concrete two-vertex graph, a
minimum-style relaxation and a concrete state. -/
theorem push_spec_witness :
    (push witnessGraph witnessRelax witnessState).1.oldActive = witnessState.oldActive ∧
    (push witnessGraph witnessRelax witnessState).1.oldData = witnessState.oldData ∧
    (push witnessGraph witnessRelax witnessState).2.map (fun c => (c.src, c.dst, c.arg)) =
      ((List.range witnessGraph.nNodes).filter
          (fun i => witnessState.oldActive.getD i false)).flatMap
        (fun i => (witnessGraph.outEdges i).map
          (fun d => (i, d, witnessState.oldData.getD i default))) ∧
    (∀ c ∈ (push witnessGraph witnessRelax witnessState).2, c.improved = true →
      (push witnessGraph witnessRelax witnessState).1.newActive.getD c.dst false = true) :=
  push_spec Nat witnessGraph witnessRelax witnessState (by decide)

end GraphCSR
